import Mathlib

/-!
Verification of the multi-tenant identity and credential core of the
`unified-backend` Go service, as a shallow embedding in Lean 4.

Conventions of the embedding:
* GORM-persisted rows become Lean structures; the database becomes an
  explicit `Store` value threaded through each operation.
* Machine-generated and cryptographic externals (bcrypt, SHA-256 token
  hashing, HS256 JWT signing, RSA-PKCS1v15 verification, base64url/JSON
  decoding, UUIDs, random bytes) are modelled as explicit function
  parameters or per-call arguments, since the Go code treats them as
  opaque library calls.
* Wall-clock times are `Int` unix timestamps passed explicitly
  (`time.Now()` becomes a `now` argument).  `created_at`/`updated_at`
  bookkeeping columns are not modelled.
* GORM soft deletion of `User` (`DeletedAt`) becomes a `deleted` flag;
  default GORM queries exclude soft-deleted rows.
-/

namespace UnifiedBackend

/-- `models.User` (src/unnamed/part_002): one principal within one tenant. -/
structure User where
  id : String
  appID : String
  email : String
  password : String
  role : String
  appleUserID : Option String
  authProvider : String
  deleted : Bool
deriving Repr, DecidableEq

/-- `models.RefreshToken` (src/internal/models/refresh_token.go). -/
structure RefreshToken where
  id : String
  appID : String
  userID : String
  tokenHash : String
  expiresAt : Int
  revoked : Bool
deriving Repr, DecidableEq

/-- The persisted credential-store state: the `users` and
`refresh_tokens` tables. -/
structure Store where
  users : List User
  refreshTokens : List RefreshToken
deriving Repr, DecidableEq

/-- `tenant.ForTenant(appID)` composed with `Where("email = ?")` and
GORM `First` (soft-deleted rows excluded): the lookup used by
`Register` and `Login`. -/
def findUserByEmail (st : Store) (appID email : String) : Option User :=
  st.users.find? (fun u => u.appID == appID && u.email == email && !u.deleted)

/-- `ForTenant(appID)` with `First(&user, "id = ?", id)`: the lookup used
by `Refresh`, `DeleteAccount` and the admin middleware role check. -/
def findUserByID (st : Store) (appID uid : String) : Option User :=
  st.users.find? (fun u => u.appID == appID && u.id == uid && !u.deleted)

/-- `ForTenant(appID)` with `Where("token_hash = ? AND revoked = false")`
and `First`: the refresh-token lookup in `AuthService.Refresh`. -/
def findActiveTokenByHash (st : Store) (appID h : String) : Option RefreshToken :=
  st.refreshTokens.find? (fun t => t.appID == appID && t.tokenHash == h && !t.revoked)

/-- `s.db.Model(&stored).Update("revoked", true)`: flips the revoked
flag of the row with the given primary key. -/
def revokeTokenByID (st : Store) (tid : String) : Store :=
  { st with refreshTokens := st.refreshTokens.map (fun t =>
      if t.id == tid then { t with revoked := true } else t) }

/-- The claims embedded in an access token by
`AuthService.generateAccessToken`. -/
structure AccessClaims where
  sub : String
  email : String
  appID : String
  isAppleUser : Bool
  iat : Int
  exp : Int
deriving Repr, DecidableEq

/-- External dependencies of `AuthService`: cryptographic hashing,
bcrypt, HS256 JWT signing, and the configured expiry durations
(`cfg.JWTAccessExpiry`, `cfg.JWTRefreshExpiry`, in seconds). -/
structure AuthEnv where
  hashToken : String → String
  bcryptHash : String → String
  bcryptCheck : String → String → Bool
  signJWT : AccessClaims → String
  accessExpiry : Int
  refreshExpiry : Int

/-- The error values produced by `AuthService` (auth_service.go:23-28,
plus ad-hoc `errors.New`/`fmt.Errorf` values). -/
inductive AuthError where
  | emailTaken
  | invalidCredentials
  | invalidToken
  | userNotFound
  | invalidInput (msg : String)
  | internalError (msg : String)
deriving Repr, DecidableEq

/-- `dto.AuthResponse` with the `dto.UserResponse` fields inlined. -/
structure AuthResponse where
  accessToken : String
  refreshToken : String
  userID : String
  userEmail : String
  isAppleUser : Bool
deriving Repr, DecidableEq

/-- `dto.RegisterRequest` / `dto.LoginRequest` share the same shape. -/
structure RegisterRequest where
  email : String
  password : String
deriving Repr, DecidableEq

/-- `AuthService.generateAccessToken`: the claims map built before HS256
signing.  `user.ID.String()` becomes `user.id`. -/
def generateAccessClaims (env : AuthEnv) (now : Int) (appID : String) (user : User) :
    AccessClaims :=
  { sub := user.id
    email := user.email
    appID := appID
    isAppleUser := user.authProvider == "apple"
    iat := now
    exp := now + env.accessExpiry }

/-- `AuthService.generateAccessToken`: signs the claims with the shared
secret (the HMAC signing itself is the external `env.signJWT`). -/
def generateAccessToken (env : AuthEnv) (now : Int) (appID : String) (user : User) :
    String :=
  env.signJWT (generateAccessClaims env now appID user)

/-- The `models.RefreshToken` row built in
`AuthService.generateRefreshToken`: only the hash of the raw secret is
persisted, with the configured long expiry. -/
def issuedToken (env : AuthEnv) (now : Int) (freshID rawToken appID userID : String) :
    RefreshToken :=
  { id := freshID
    appID := appID
    userID := userID
    tokenHash := env.hashToken rawToken
    expiresAt := now + env.refreshExpiry
    revoked := false }

/-- `AuthService.generateRefreshToken`: `rawToken` models the URL-safe
encoding of the 32 fresh random bytes and `freshID` the fresh UUID;
only `env.hashToken rawToken` (SHA-256 hex) is persisted. -/
def generateRefreshToken (env : AuthEnv) (now : Int) (freshID rawToken : String)
    (appID : String) (user : User) (st : Store) : String × Store :=
  let record : RefreshToken := issuedToken env now freshID rawToken appID user.id
  (rawToken, { st with refreshTokens := st.refreshTokens ++ [record] })

/-- `AuthService.generateTokenPair`. -/
def generateTokenPair (env : AuthEnv) (now : Int) (freshID rawToken : String)
    (appID : String) (user : User) (st : Store) : AuthResponse × Store :=
  let accessToken := generateAccessToken env now appID user
  let out := generateRefreshToken env now freshID rawToken appID user st
  ({ accessToken := accessToken
     refreshToken := out.1
     userID := user.id
     userEmail := user.email
     isAppleUser := user.authProvider == "apple" }, out.2)

/-- The `models.User` row built in `AuthService.Register`: the bcrypt
hash is stored, the GORM column default gives `role = "user"`. -/
def registeredUser (env : AuthEnv) (uid appID : String) (req : RegisterRequest) : User :=
  { id := uid
    appID := appID
    email := req.email
    password := env.bcryptHash req.password
    role := "user"
    appleUserID := none
    authProvider := "email"
    deleted := false }

/-- `AuthService.Register` (auth_service.go:44-72).  `len` in Go is the
UTF-8 byte length. -/
def Register (env : AuthEnv) (now : Int) (freshUserID freshTokenID rawToken : String)
    (appID : String) (req : RegisterRequest) (st : Store) :
    Except AuthError AuthResponse × Store :=
  if req.email.utf8ByteSize == 0 || req.password.utf8ByteSize < 8 then
    (.error (.invalidInput "email required and password must be at least 8 characters"), st)
  else
    match findUserByEmail st appID req.email with
    | some _ => (.error .emailTaken, st)
    | none =>
      let user : User := registeredUser env freshUserID appID req
      let st1 : Store := { st with users := st.users ++ [user] }
      let out := generateTokenPair env now freshTokenID rawToken appID user st1
      (.ok out.1, out.2)

/-- `AuthService.Login` (auth_service.go:74-85): the tenant-scoped email
lookup, then `bcrypt.CompareHashAndPassword`. -/
def Login (env : AuthEnv) (now : Int) (freshTokenID rawToken : String)
    (appID : String) (req : RegisterRequest) (st : Store) :
    Except AuthError AuthResponse × Store :=
  match findUserByEmail st appID req.email with
  | none => (.error .invalidCredentials, st)
  | some user =>
    if env.bcryptCheck user.password req.password then
      let out := generateTokenPair env now freshTokenID rawToken appID user st
      (.ok out.1, out.2)
    else
      (.error .invalidCredentials, st)

/-- `AuthService.Refresh` (auth_service.go:87-108).  Note that the
expired branch also issues `Update("revoked", true)` before returning
`ErrInvalidToken`. -/
def Refresh (env : AuthEnv) (now : Int) (freshTokenID rawToken : String)
    (appID : String) (refreshToken : String) (st : Store) :
    Except AuthError AuthResponse × Store :=
  let tokenHash := env.hashToken refreshToken
  match findActiveTokenByHash st appID tokenHash with
  | none => (.error .invalidToken, st)
  | some stored =>
    if stored.expiresAt < now then
      (.error .invalidToken, revokeTokenByID st stored.id)
    else
      let st1 := revokeTokenByID st stored.id
      match findUserByID st1 appID stored.userID with
      | none => (.error (.internalError "user not found"), st1)
      | some user =>
        let out := generateTokenPair env now freshTokenID rawToken appID user st1
        (.ok out.1, out.2)

/-- `AuthService.Logout` (auth_service.go:110-116): marks every matching
tenant-scoped row revoked. -/
def Logout (env : AuthEnv) (appID : String) (refreshToken : String) (st : Store) :
    Store :=
  let tokenHash := env.hashToken refreshToken
  { st with refreshTokens := st.refreshTokens.map (fun t =>
      if t.appID == appID && t.tokenHash == tokenHash then { t with revoked := true }
      else t) }

/-- The cascade inside `AuthService.DeleteAccount`'s transaction,
restricted to the tables modelled here: hard-delete the user's
tenant-scoped refresh tokens, then soft-delete the user row (GORM
`Delete` by primary key on a model with `DeletedAt`).  The
subscription, report and block cascades touch tables outside this
model. -/
def deleteAccountCascade (st : Store) (appID userID : String) : Store :=
  { users := st.users.map (fun u =>
      if u.id == userID then { u with deleted := true } else u)
    refreshTokens := st.refreshTokens.filter (fun t =>
      !(t.userID == userID && t.appID == appID)) }

/-- `AuthService.DeleteAccount` (auth_service.go:118-140). -/
def DeleteAccount (env : AuthEnv) (appID userID password : String) (st : Store) :
    Except AuthError Unit × Store :=
  match findUserByID st appID userID with
  | none => (.error .userNotFound, st)
  | some user =>
    if user.authProvider != "apple" then
      if password == "" then
        (.error (.invalidInput "password is required"), st)
      else if env.bcryptCheck user.password password then
        (.ok (), deleteAccountCascade st appID userID)
      else
        (.error .invalidCredentials, st)
    else
      (.ok (), deleteAccountCascade st appID userID)

/-- The database half of `middleware.AdminRequired` (admin.go:54-64):
the tenant-scoped user lookup by the token subject, accepted only when
the persisted role equals `admin`. -/
def adminDBRoleCheck (st : Store) (appID sub : String) : Bool :=
  match findUserByID st appID sub with
  | some user => user.role == "admin"
  | none => false

/-- `services.AppleJWTHeader`. -/
structure AppleJWTHeader where
  alg : String
  kid : String
  typ : String
deriving Repr, DecidableEq

/-- `services.AppleJWTClaims` (the `email_verified` field, unused by the
verification path, is not modelled). -/
structure AppleJWTClaims where
  iss : String
  sub : String
  aud : String
  iat : Int
  exp : Int
  email : String
deriving Repr, DecidableEq

/-- `rsa.PublicKey`: modulus and exponent. -/
structure RSAPublicKey where
  n : Nat
  e : Nat
deriving Repr, DecidableEq

/-- The distinct failure branches of `AppleJWKSClient.VerifyToken`
(routes.go:290-347); each constructor is one `return nil, fmt.Errorf`
site. -/
inductive VerifyError where
  | invalidTokenFormat
  | headerDecodeFailed
  | unsupportedAlgorithm (alg : String)
  | publicKeyError
  | claimsDecodeFailed
  | invalidIssuer (iss : String)
  | invalidAudience (aud expected : String)
  | tokenExpired
  | signatureDecodeFailed
  | signatureInvalid
deriving Repr, DecidableEq

/-- External dependencies of `AppleJWKSClient.VerifyToken`: base64url +
JSON decoding of the three segments, the JWKS key cache/fetch keyed by
`kid`, RSA-PKCS1v15-SHA256 signature verification over the signing
input, and the current time. -/
structure JWKSEnv where
  decodeHeader : String → Option AppleJWTHeader
  getPublicKey : String → Option RSAPublicKey
  decodeClaims : String → Option AppleJWTClaims
  decodeSignature : String → Option (List Nat)
  verifySignature : RSAPublicKey → String → List Nat → Bool
  now : Int

/-- `strings.Split(s, ".")`, at the character level (the segments of a
JWT compact serialization). -/
def splitOnDot (s : String) : List String :=
  (s.data.splitOn '.').map (fun cs => String.mk cs)

/-- `AppleJWKSClient.VerifyToken` (routes.go:290-347): split on `.`,
decode the header, pin the algorithm to RS256, resolve the public key
by `kid`, decode the claims, check issuer / audience / expiry, and only
then verify the RSA signature over `header + "." + payload`. -/
def VerifyToken (env : JWKSEnv) (identityToken bundleID : String) :
    Except VerifyError AppleJWTClaims :=
  let parts := splitOnDot identityToken
  if parts.length ≠ 3 then .error .invalidTokenFormat
  else
    match env.decodeHeader (parts.getD 0 "") with
    | none => .error .headerDecodeFailed
    | some header =>
      if header.alg ≠ "RS256" then .error (.unsupportedAlgorithm header.alg)
      else
        match env.getPublicKey header.kid with
        | none => .error .publicKeyError
        | some pubKey =>
          match env.decodeClaims (parts.getD 1 "") with
          | none => .error .claimsDecodeFailed
          | some claims =>
            if claims.iss ≠ "https://appleid.apple.com" then
              .error (.invalidIssuer claims.iss)
            else if claims.aud ≠ bundleID then
              .error (.invalidAudience claims.aud bundleID)
            else if claims.exp < env.now then
              .error .tokenExpired
            else
              let signingInput := parts.getD 0 "" ++ "." ++ parts.getD 1 ""
              match env.decodeSignature (parts.getD 2 "") with
              | none => .error .signatureDecodeFailed
              | some sig =>
                if env.verifySignature pubKey signingInput sig then .ok claims
                else .error .signatureInvalid

/-- `dto.AppleSignInRequest` (the unused `authorization_code` field is
not modelled). -/
structure AppleSignInRequest where
  identityToken : String
  fullName : String
  email : String
deriving Repr, DecidableEq

/-- The user lookup in `AuthService.AppleSignIn`:
`Where("apple_user_id = ? OR email = ?", appleUserID, email)` scoped to
the tenant. -/
def findUserByAppleIDOrEmail (st : Store) (appID appleUserID email : String) :
    Option User :=
  st.users.find? (fun u =>
    u.appID == appID && (u.appleUserID == some appleUserID || u.email == email)
      && !u.deleted)

/-- `s.db.Model(&user).Updates(map{"apple_user_id": ..., "auth_provider":
"apple"})`: a by-primary-key update of exactly those two columns. -/
def updateAppleLink (st : Store) (uid appleUserID : String) : Store :=
  { st with users := st.users.map (fun u =>
      if u.id == uid then { u with appleUserID := some appleUserID, authProvider := "apple" }
      else u) }

/-- The effective email picked in `AuthService.AppleSignIn`
(auth_service.go:154-160): the verified claim, then the request body,
then the synthesized placeholder derived from the Apple subject. -/
def appleEffectiveEmail (claims : AppleJWTClaims) (req : AppleSignInRequest) : String :=
  if claims.email ≠ "" then claims.email
  else if req.email ≠ "" then req.email
  else claims.sub ++ "@privaterelay.appleid.com"

/-- `AuthService.AppleSignIn` (auth_service.go:142-195): verify the
identity token, resolve the effective email, then upsert the user and
issue a pair.  `freshUserID` models the `uuid.New()` drawn in the
create branch. -/
def AppleSignIn (env : AuthEnv) (jwks : JWKSEnv) (now : Int)
    (freshUserID freshTokenID rawToken : String) (appID bundleID : String)
    (req : AppleSignInRequest) (st : Store) : Except AuthError AuthResponse × Store :=
  if req.identityToken == "" then
    (.error (.invalidInput "identity token is required"), st)
  else
    match VerifyToken jwks req.identityToken bundleID with
    | .error _ => (.error (.internalError "failed to verify Apple identity token"), st)
    | .ok claims =>
      let appleUserID := claims.sub
      let email := appleEffectiveEmail claims req
      match findUserByAppleIDOrEmail st appID appleUserID email with
      | none =>
        let user : User :=
          { id := freshUserID
            appID := appID
            email := email
            password := ""
            role := "user"
            appleUserID := some appleUserID
            authProvider := "apple"
            deleted := false }
        let st1 : Store := { st with users := st.users ++ [user] }
        let out := generateTokenPair env now freshTokenID rawToken appID user st1
        (.ok out.1, out.2)
      | some user =>
        if user.appleUserID = none then
          let st1 := updateAppleLink st user.id appleUserID
          let user1 : User := { user with appleUserID := some appleUserID, authProvider := "apple" }
          let out := generateTokenPair env now freshTokenID rawToken appID user1 st1
          (.ok out.1, out.2)
        else
          let out := generateTokenPair env now freshTokenID rawToken appID user st
          (.ok out.1, out.2)

/-- `middleware.tenantSkipPaths` (tenant.go:13-17). -/
def tenantSkipPaths : List String := ["/api/health", "/api/legal/", "/api/webhooks/"]

/-- The observable request inputs of `middleware.TenantMiddleware`:
the path, the `app_id` claim of an already-verified JWT when one is in
`Locals` (`none` when the token or its claims are absent or not of the
expected shape), and the `X-App-ID` header and `app_id` query values
(`""` when absent, as in fiber). -/
structure TenantRequest where
  path : String
  jwtAppID : Option String
  headerAppID : String
  queryAppID : String
deriving Repr, DecidableEq

/-- The outcome of the tenant middleware: `next appID?` models
`c.Next()` with `Locals("app_id")` either set (`some`) or untouched on
an exempt path (`none`); `badRequest` models the 400 JSON error
response. -/
inductive TenantOutcome where
  | next (appID : Option String)
  | badRequest (msg : String)
deriving Repr, DecidableEq

/-- Steps 2-4 of `middleware.TenantMiddleware` (tenant.go:41-71): the
`X-App-ID` header validated against the registry, then the `app_id`
query parameter with the same validation, then the hard 400. -/
def tenantFallback (registryExists : String → Bool) (req : TenantRequest) :
    TenantOutcome :=
  if req.headerAppID ≠ "" then
    if !registryExists req.headerAppID then
      .badRequest ("Invalid X-App-ID: " ++ req.headerAppID)
    else
      .next (some req.headerAppID)
  else if req.queryAppID ≠ "" then
    if !registryExists req.queryAppID then
      .badRequest ("Invalid app_id: " ++ req.queryAppID)
    else
      .next (some req.queryAppID)
  else
    .badRequest "X-App-ID header is required"

/-- `middleware.TenantMiddleware` (tenant.go:20-73): exempt-path skip
by prefix, then the JWT claim (used only when present and non-empty),
then the header/query fallbacks. -/
def TenantMiddleware (registryExists : String → Bool) (req : TenantRequest) :
    TenantOutcome :=
  if tenantSkipPaths.any (fun skip => skip.data.isPrefixOf req.path.data) then
    .next none
  else
    match req.jwtAppID with
    | some a => if a ≠ "" then .next (some a) else tenantFallback registryExists req
    | none => tenantFallback registryExists req

/-- `tenant.AppConfig` (src/unnamed/part_000): the per-tenant
configuration record.  Go maps and slices become association lists and
lists. -/
structure AppConfig where
  appID : String
  appName : String
  bundleID : String
  aiProvider : String
  aiConfig : List (String × String)
  features : List (String × Bool)
  revenueCatAuth : String
  appleClientIDs : List String
deriving Repr, DecidableEq

/-- `tenant.Registry`: the `map[string]*AppConfig` is modelled as its
lookup function. -/
structure Registry where
  apps : String → Option AppConfig

/-- `tenant.NewRegistry`. -/
def newRegistry : Registry := { apps := fun _ => none }

/-- `Registry.Register`: `r.apps[cfg.AppID] = cfg` (map overwrite). -/
def Registry.registerApp (r : Registry) (cfg : AppConfig) : Registry :=
  { apps := fun id => if id == cfg.appID then some cfg else r.apps id }

/-- `Registry.Get`. -/
def Registry.getApp (r : Registry) (appID : String) : Option AppConfig :=
  r.apps appID

/-- `Registry.Exists`. -/
def Registry.existsApp (r : Registry) (appID : String) : Bool :=
  (r.apps appID).isSome

/-- The registry built by `tenant.LoadFromFile` after `os.ReadFile` and
`json.Unmarshal` succeed: every parsed `AppConfig` registered in file
order into a fresh registry.  A successful load returns exactly
`loadFromApps file.Apps`. -/
def loadFromApps (apps : List AppConfig) : Registry :=
  apps.foldl (fun r cfg => r.registerApp cfg) newRegistry

/-- The HTTP status chosen by `handlers.AuthHandler.Register`
(src/unnamed/part_026:22-44) from the service result: 201 on success,
409 for `ErrEmailTaken`, 400 for every other service error. -/
def registerStatus : Except AuthError AuthResponse → Nat
  | .ok _ => 201
  | .error .emailTaken => 409
  | .error _ => 400

/-- No live session-continuation credential with this hash: the
tenant-scoped active-token lookup misses. -/
def NoActiveToken (st : Store) (appID h : String) : Prop :=
  findActiveTokenByHash st appID h = none

/-- The data-model invariant `token_hash` carries a `uniqueIndex`
(refresh_token.go): two stored rows with the same hash are the same
row. -/
def TokenHashUnique (st : Store) : Prop :=
  ∀ t1 ∈ st.refreshTokens, ∀ t2 ∈ st.refreshTokens, t1.tokenHash = t2.tokenHash → t1 = t2

/-- The resolution order of section 4.5 of the specification, stated
declaratively: the verified access-token claim first, then the
registry-validated header, then the registry-validated query
parameter. -/
def ResolvesTo (registryExists : String → Bool) (req : TenantRequest) (a : String) :
    Prop :=
  (req.jwtAppID = some a ∧ a ≠ "")
  ∨ ((req.jwtAppID = none ∨ req.jwtAppID = some "") ∧ req.headerAppID = a ∧ a ≠ ""
      ∧ registryExists a = true)
  ∨ ((req.jwtAppID = none ∨ req.jwtAppID = some "") ∧ req.headerAppID = ""
      ∧ req.queryAppID = a ∧ a ≠ "" ∧ registryExists a = true)

/-- Any sequence of credential-core operations applied after a starting
store, by arbitrary callers of arbitrary tenants.  `avoid` constrains
the fresh random refresh-token material drawn inside an operation: its
hash differs from `avoid` (32 fresh random bytes collide with a fixed
hash only negligibly).  Revocation-only and deletion-only steps need no
side condition. -/
inductive Reach (env : AuthEnv) (avoid : String) : Store → Store → Prop where
  | refl (st : Store) : Reach env avoid st st
  | registerStep (st st' : Store) (now : Int) (uid fid raw appID : String)
      (req : RegisterRequest) (h : Reach env avoid st st')
      (hfresh : env.hashToken raw ≠ avoid) :
      Reach env avoid st (Register env now uid fid raw appID req st').2
  | loginStep (st st' : Store) (now : Int) (fid raw appID : String)
      (req : RegisterRequest) (h : Reach env avoid st st')
      (hfresh : env.hashToken raw ≠ avoid) :
      Reach env avoid st (Login env now fid raw appID req st').2
  | refreshStep (st st' : Store) (now : Int) (fid raw appID tok : String)
      (h : Reach env avoid st st') (hfresh : env.hashToken raw ≠ avoid) :
      Reach env avoid st (Refresh env now fid raw appID tok st').2
  | logoutStep (st st' : Store) (appID tok : String) (h : Reach env avoid st st') :
      Reach env avoid st (Logout env appID tok st')
  | deleteStep (st st' : Store) (appID uid pw : String) (h : Reach env avoid st st') :
      Reach env avoid st (DeleteAccount env appID uid pw st').2
  | appleStep (st st' : Store) (jwks : JWKSEnv) (now : Int)
      (uid fid raw appID bundleID : String) (req : AppleSignInRequest)
      (h : Reach env avoid st st') (hfresh : env.hashToken raw ≠ avoid) :
      Reach env avoid st (AppleSignIn env jwks now uid fid raw appID bundleID req st').2

/-! Concrete fixtures used by the evaluation witnesses: a stand-in
environment whose external hash / bcrypt / signing functions are simple
injective string builders, and small stores. -/

/-- Witness environment. -/
def cEnv : AuthEnv :=
  { hashToken := fun s => "sha" ++ s
    bcryptHash := fun s => "bc" ++ s
    bcryptCheck := fun h p => h == "bc" ++ p
    signJWT := fun c => "jwt." ++ c.sub ++ "." ++ c.appID
    accessExpiry := 900
    refreshExpiry := 1000 }

/-- Witness user of tenant `t1`. -/
def user0 : User :=
  { id := "u1", appID := "t1", email := "a@x.com", password := "bcsecret11"
    role := "user", appleUserID := none, authProvider := "email", deleted := false }

/-- Witness refresh token of `user0`, hash of raw secret `r1`. -/
def tok0 : RefreshToken :=
  { id := "rt1", appID := "t1", userID := "u1", tokenHash := "shar1"
    expiresAt := 1000, revoked := false }

/-- Witness store: one user, one live refresh token. -/
def wStore : Store := { users := [user0], refreshTokens := [tok0] }

/-- The response of the witness refresh call on `wStore`. -/
def wResp : AuthResponse :=
  { accessToken := "jwt.u1.t1", refreshToken := "r2", userID := "u1"
    userEmail := "a@x.com", isAppleUser := false }

/-- The store after the witness refresh call on `wStore`: the old row
revoked, the rotated row appended. -/
def wStore1 : Store :=
  { users := [user0]
    refreshTokens :=
      [{ tok0 with revoked := true },
       { id := "rt2", appID := "t1", userID := "u1", tokenHash := "shar2"
         expiresAt := 1010, revoked := false }] }

/-- An already-expired stored refresh token (raw secret `r9`). -/
def tokExpired : RefreshToken :=
  { id := "rt9", appID := "t1", userID := "u1", tokenHash := "shar9"
    expiresAt := 5, revoked := false }

/-- Store holding only the expired token. -/
def xStore : Store := { users := [user0], refreshTokens := [tokExpired] }

/-- Witness Apple JWT header. -/
def jHeader : AppleJWTHeader := { alg := "RS256", kid := "k1", typ := "JWT" }

/-- Witness Apple claims for audience `com.app.one`. -/
def jClaims : AppleJWTClaims :=
  { iss := "https://appleid.apple.com", sub := "apple-sub-1", aud := "com.app.one"
    iat := 0, exp := 100, email := "a@x.com" }

/-- Witness RSA key. -/
def jKey : RSAPublicKey := { n := 77, e := 3 }

/-- Witness JWKS environment: every decode succeeds with the fixtures
above and the signature verifies. -/
def jEnv : JWKSEnv :=
  { decodeHeader := fun _ => some jHeader
    getPublicKey := fun _ => some jKey
    decodeClaims := fun _ => some jClaims
    decodeSignature := fun _ => some [1]
    verifySignature := fun _ _ _ => true
    now := 0 }

/-- A password-provider user matched by email during Apple sign-in. -/
def pwUser : User :=
  { id := "u7", appID := "t1", email := "a@x.com", password := "bcpw123456"
    role := "admin", appleUserID := none, authProvider := "email", deleted := false }

/-- Store for the Apple sign-in backfill witness. -/
def aStore : Store := { users := [pwUser], refreshTokens := [] }

/-- Apple sign-in request for the backfill witness. -/
def aReq : AppleSignInRequest := { identityToken := "h.p.s", fullName := "", email := "" }

/-- Witness registry membership function: exactly tenant `t1`. -/
def reg1 : String → Bool := fun s => s == "t1"

/-- Witness request carrying tenant `t1` in the header. -/
def req5 : TenantRequest :=
  { path := "/api/auth/login", jwtAppID := none, headerAppID := "t1", queryAppID := "" }

/-- Empty store for the registration witnesses. -/
def emptyStore : Store := { users := [], refreshTokens := [] }

/-- The registration request of the specification scenario. -/
def regReq : RegisterRequest := { email := "a@x.com", password := "longenough1" }

/-- A tenant definition with an empty identifier. -/
def emptyIDCfg : AppConfig :=
  { appID := "", appName := "Ghost", bundleID := "", aiProvider := ""
    aiConfig := [], features := [], revenueCatAuth := "", appleClientIDs := [] }

/-- The user row created by the witness registration. -/
def regUser1 : User :=
  { id := "u1", appID := "t1", email := "a@x.com", password := "bclongenough1"
    role := "user", appleUserID := none, authProvider := "email", deleted := false }

/-- The store after the witness registration on `emptyStore`. -/
def stReg1 : Store :=
  { users := [regUser1]
    refreshTokens := [{ id := "rt1", appID := "t1", userID := "u1"
                        tokenHash := "shar1", expiresAt := 1010, revoked := false }] }

/-- The response of the witness registration. -/
def respReg : AuthResponse :=
  { accessToken := "jwt.u1.t1", refreshToken := "r1", userID := "u1"
    userEmail := "a@x.com", isAppleUser := false }

/-- Store for the round-trip witness: the user and no tokens. -/
def store6 : Store := { users := [user0], refreshTokens := [] }

/-- The pair issued on `store6` (raw secret `r1`, drawn id `rt1`). -/
def resp6first : AuthResponse :=
  { accessToken := "jwt.u1.t1", refreshToken := "r1", userID := "u1"
    userEmail := "a@x.com", isAppleUser := false }

/-- `store6` after issuing the pair. -/
def store6a : Store :=
  { users := [user0]
    refreshTokens := [{ id := "rt1", appID := "t1", userID := "u1"
                        tokenHash := "shar1", expiresAt := 1010, revoked := false }] }

/-- The response of refreshing the issued pair. -/
def resp6 : AuthResponse :=
  { accessToken := "jwt.u1.t1", refreshToken := "r2", userID := "u1"
    userEmail := "a@x.com", isAppleUser := false }

/-- `store6a` after the refresh: rotation revoked `rt1` and stored `rt2`. -/
def store6b : Store :=
  { users := [user0]
    refreshTokens := [{ id := "rt1", appID := "t1", userID := "u1"
                        tokenHash := "shar1", expiresAt := 1010, revoked := true },
                      { id := "rt2", appID := "t1", userID := "u1"
                        tokenHash := "shar2", expiresAt := 1020, revoked := false }] }

/-! Theorems. -/

/-- The tenant filter of the email lookup: a returned user carries the
queried tenant identifier. -/
theorem findUserByEmail_appID {st : Store} {appID email : String} {u : User}
    (h : findUserByEmail st appID email = some u) : u.appID = appID := by
  unfold findUserByEmail at h
  have hp := List.find?_some h
  simp only [Bool.and_eq_true, beq_iff_eq] at hp
  exact hp.1.1

/-- The tenant filter of the id lookup. -/
theorem findUserByID_appID {st : Store} {appID uid : String} {u : User}
    (h : findUserByID st appID uid = some u) : u.appID = appID := by
  unfold findUserByID at h
  have hp := List.find?_some h
  simp only [Bool.and_eq_true, beq_iff_eq] at hp
  exact hp.1.1

/-- The tenant filter of the active-refresh-token lookup. -/
theorem findActiveTokenByHash_appID {st : Store} {appID h : String} {t : RefreshToken}
    (hf : findActiveTokenByHash st appID h = some t) : t.appID = appID := by
  unfold findActiveTokenByHash at hf
  have hp := List.find?_some hf
  simp only [Bool.and_eq_true, beq_iff_eq] at hp
  exact hp.1.1

/-- C1: For every two distinct tenants A and B, a user created in
tenant A is never returned by any user lookup scoped to tenant B, even
when the lookup uses an email identical to that user's: every
credential-store read (login's email lookup, refresh's token and user
lookups, delete-account's user lookup, the admin role check) is
filtered by the resolved tenant identifier. -/
theorem tenant_isolation_lookups (st : Store) (A B : String) (hAB : A ≠ B) :
    (∀ u email, findUserByEmail st B email = some u → u.appID ≠ A)
  ∧ (∀ u uid, findUserByID st B uid = some u → u.appID ≠ A)
  ∧ (∀ t h, findActiveTokenByHash st B h = some t → t.appID ≠ A)
  ∧ (∀ sub, adminDBRoleCheck st B sub = true →
      ∃ u, findUserByID st B sub = some u ∧ u.appID = B ∧ u.role = "admin")
  ∧ (∀ u ∈ st.users, u.appID = A → ∀ email, findUserByEmail st B email ≠ some u) := by
  refine ⟨?_, ?_, ?_, ?_, ?_⟩
  · intro u email h
    rw [findUserByEmail_appID h]
    exact fun hBA => hAB hBA.symm
  · intro u uid h
    rw [findUserByID_appID h]
    exact fun hBA => hAB hBA.symm
  · intro t h hf
    rw [findActiveTokenByHash_appID hf]
    exact fun hBA => hAB hBA.symm
  · intro sub hrole
    unfold adminDBRoleCheck at hrole
    cases hf : findUserByID st B sub with
    | none => rw [hf] at hrole; exact absurd hrole (by simp)
    | some u =>
      rw [hf] at hrole
      simp only [beq_iff_eq] at hrole
      exact ⟨u, rfl, findUserByID_appID hf, hrole⟩
  · intro u _ huA email hfind
    exact hAB (huA.symm.trans (findUserByEmail_appID hfind))

/-- C1 witness: tenant `t2` never sees the `t1` user, even querying its
exact email. -/
theorem tenant_isolation_lookups_witness :
    findUserByEmail wStore "t2" "a@x.com" ≠ some user0 := by
  exact (tenant_isolation_lookups wStore "t1" "t2" (by decide)).2.2.2.2 user0
    (by decide) rfl "a@x.com"

/-- C8: login fails with the one generic `InvalidCredentials` error
value both when no user with the email exists in the tenant and when
the user exists but the password does not match the stored hash. -/
theorem login_generic_error (env : AuthEnv) (now : Int) (fid raw appID : String)
    (req : RegisterRequest) (st : Store) :
    (findUserByEmail st appID req.email = none →
      Login env now fid raw appID req st = (.error .invalidCredentials, st))
  ∧ (∀ u, findUserByEmail st appID req.email = some u →
      env.bcryptCheck u.password req.password = false →
      Login env now fid raw appID req st = (.error .invalidCredentials, st)) := by
  constructor
  · intro h
    simp [Login, h]
  · intro u hu hc
    simp [Login, hu, hc]

/-- C8 witness: unknown email and wrong password produce the identical
error result on the concrete store. -/
theorem login_generic_error_witness :
    Login cEnv 10 "rt2" "r2" "t1" { email := "nobody@x.com", password := "whatever" } wStore
      = (.error .invalidCredentials, wStore)
  ∧ Login cEnv 10 "rt2" "r2" "t1" { email := "a@x.com", password := "wrongpass" } wStore
      = (.error .invalidCredentials, wStore) := by
  constructor
  · exact (login_generic_error cEnv 10 "rt2" "r2" "t1" _ wStore).1 rfl
  · exact (login_generic_error cEnv 10 "rt2" "r2" "t1" _ wStore).2 user0 rfl rfl

/-- C3: third-party verification fails with a `VerifyError` whenever
the payload audience is not exactly the tenant's configured audience,
even for an otherwise validly-signed assertion, and the issuer,
audience and expiry checks are all decided before the signature is
looked at: each of the three failures yields its error for every
possible signature-decoding and signature-verification behaviour. -/
theorem apple_verify_prechecks_before_signature (env : JWKSEnv)
    (token bundleID : String) (header : AppleJWTHeader) (key : RSAPublicKey)
    (claims : AppleJWTClaims)
    (hparts : (splitOnDot token).length = 3)
    (hheader : env.decodeHeader ((splitOnDot token).getD 0 "") = some header)
    (halg : header.alg = "RS256")
    (hkey : env.getPublicKey header.kid = some key)
    (hclaims : env.decodeClaims ((splitOnDot token).getD 1 "") = some claims) :
    (claims.iss ≠ "https://appleid.apple.com" →
      ∀ ds vs, VerifyToken { env with decodeSignature := ds, verifySignature := vs }
          token bundleID = .error (.invalidIssuer claims.iss))
  ∧ (claims.iss = "https://appleid.apple.com" → claims.aud ≠ bundleID →
      ∀ ds vs, VerifyToken { env with decodeSignature := ds, verifySignature := vs }
          token bundleID = .error (.invalidAudience claims.aud bundleID))
  ∧ (claims.iss = "https://appleid.apple.com" → claims.aud = bundleID →
      claims.exp < env.now →
      ∀ ds vs, VerifyToken { env with decodeSignature := ds, verifySignature := vs }
          token bundleID = .error .tokenExpired) := by
  have hsplit : ∃ p0 p1 p2, splitOnDot token = [p0, p1, p2] := by
    cases hl : splitOnDot token with
    | nil => rw [hl] at hparts; simp at hparts
    | cons a t1 =>
      cases t1 with
      | nil => rw [hl] at hparts; simp at hparts
      | cons b t2 =>
        cases t2 with
        | nil => rw [hl] at hparts; simp at hparts
        | cons c t3 =>
          cases t3 with
          | nil => exact ⟨a, b, c, rfl⟩
          | cons d t4 => rw [hl] at hparts; simp at hparts
  obtain ⟨p0, p1, p2, hsplit⟩ := hsplit
  rw [hsplit] at hheader hclaims
  simp only [List.getD_cons_zero, List.getD_cons_succ] at hheader hclaims
  refine ⟨?_, ?_, ?_⟩
  · intro hiss ds vs
    simp [VerifyToken, hsplit, hheader, halg, hkey, hclaims, hiss]
  · intro hiss haud ds vs
    simp [VerifyToken, hsplit, hheader, halg, hkey, hclaims, hiss, haud]
  · intro hiss haud hexp ds vs
    simp [VerifyToken, hsplit, hheader, halg, hkey, hclaims, hiss, haud, hexp]

/-- C3 witness: an assertion for audience `com.app.one` is rejected for
a tenant configured with `com.app.two`, with the signature verifier
accepting everything. -/
theorem apple_verify_prechecks_witness :
    VerifyToken { jEnv with decodeSignature := fun _ => some [1]
                            verifySignature := fun _ _ _ => true } "h.p.s" "com.app.two"
      = .error (.invalidAudience "com.app.one" "com.app.two") := by
  exact (apple_verify_prechecks_before_signature jEnv "h.p.s" "com.app.two"
    jHeader jKey jClaims (by decide) rfl rfl rfl rfl).2.1 rfl (by decide)
    (fun _ => some [1]) (fun _ _ _ => true)

/-- The outcomes of the header/query fallback steps of the tenant
middleware: the possible resolutions, the impossibility of an unscoped
pass, and the guaranteed 400 when nothing resolves. -/
theorem tenantFallback_cases (reg : String → Bool) (req : TenantRequest) :
    (∀ a, tenantFallback reg req = .next (some a) ↔
        ((req.headerAppID = a ∧ a ≠ "" ∧ reg a = true)
         ∨ (req.headerAppID = "" ∧ req.queryAppID = a ∧ a ≠ "" ∧ reg a = true)))
  ∧ tenantFallback reg req ≠ .next none
  ∧ ((∀ a, ¬((req.headerAppID = a ∧ a ≠ "" ∧ reg a = true)
         ∨ (req.headerAppID = "" ∧ req.queryAppID = a ∧ a ≠ "" ∧ reg a = true)))
       → ∃ msg, tenantFallback reg req = .badRequest msg) := by
  by_cases hh : req.headerAppID = ""
  · by_cases hq : req.queryAppID = ""
    · have hout : tenantFallback reg req = .badRequest "X-App-ID header is required" := by
        simp [tenantFallback, hh, hq]
      refine ⟨?_, by simp [hout], fun _ => ⟨_, hout⟩⟩
      intro a
      rw [hout]
      constructor
      · intro hcontra
        exact TenantOutcome.noConfusion hcontra
      · rintro (⟨ha, hne, _⟩ | ⟨_, ha, hne, _⟩)
        · exact absurd (ha.symm.trans hh) hne
        · exact absurd (ha.symm.trans hq) hne
    · by_cases hr : reg req.queryAppID = true
      · have hout : tenantFallback reg req = .next (some req.queryAppID) := by
          simp [tenantFallback, hh, hq, hr]
        refine ⟨?_, by simp [hout], ?_⟩
        · intro a
          rw [hout]
          constructor
          · intro hnext
            simp only [TenantOutcome.next.injEq, Option.some.injEq] at hnext
            subst hnext
            exact Or.inr ⟨hh, rfl, hq, hr⟩
          · rintro (⟨ha, hne, _⟩ | ⟨_, ha, _, _⟩)
            · exact absurd (ha.symm.trans hh) hne
            · rw [ha]
        · intro hnone
          exact absurd (Or.inr ⟨hh, rfl, hq, hr⟩) (hnone req.queryAppID)
      · have hout : tenantFallback reg req
            = .badRequest ("Invalid app_id: " ++ req.queryAppID) := by
          simp [tenantFallback, hh, hq, hr]
        refine ⟨?_, by simp [hout], fun _ => ⟨_, hout⟩⟩
        intro a
        rw [hout]
        constructor
        · intro hcontra
          exact TenantOutcome.noConfusion hcontra
        · rintro (⟨ha, hne, _⟩ | ⟨_, ha, _, hrg⟩)
          · exact absurd (ha.symm.trans hh) hne
          · exact absurd (ha ▸ hrg) hr
  · by_cases hr : reg req.headerAppID = true
    · have hout : tenantFallback reg req = .next (some req.headerAppID) := by
        simp [tenantFallback, hh, hr]
      refine ⟨?_, by simp [hout], ?_⟩
      · intro a
        rw [hout]
        constructor
        · intro hnext
          simp only [TenantOutcome.next.injEq, Option.some.injEq] at hnext
          subst hnext
          exact Or.inl ⟨rfl, hh, hr⟩
        · rintro (⟨ha, _, _⟩ | ⟨ha, _, _, _⟩)
          · rw [ha]
          · exact absurd ha hh
      · intro hnone
        exact absurd (Or.inl ⟨rfl, hh, hr⟩) (hnone req.headerAppID)
    · have hout : tenantFallback reg req
          = .badRequest ("Invalid X-App-ID: " ++ req.headerAppID) := by
        simp [tenantFallback, hh, hr]
      refine ⟨?_, by simp [hout], fun _ => ⟨_, hout⟩⟩
      intro a
      rw [hout]
      constructor
      · intro hcontra
        exact TenantOutcome.noConfusion hcontra
      · rintro (⟨ha, _, hrg⟩ | ⟨ha, _, _, _⟩)
        · exact absurd (ha ▸ hrg) hr
        · exact absurd ha hh

/-- C5: on every request to a non-exempt path, the middleware resolves
exactly one tenant identifier in first-match-wins order (verified-token
claim, then registry-validated header, then registry-validated query
parameter), never passes the request on unscoped, and answers with a
400 response when nothing resolves. -/
theorem tenant_middleware_resolution (reg : String → Bool) (req : TenantRequest)
    (hpath : (tenantSkipPaths.any (fun skip => skip.data.isPrefixOf req.path.data))
      = false) :
    (∀ a, TenantMiddleware reg req = .next (some a) ↔ ResolvesTo reg req a)
  ∧ TenantMiddleware reg req ≠ .next none
  ∧ ((∀ a, ¬ ResolvesTo reg req a) → ∃ msg, TenantMiddleware reg req = .badRequest msg)
    := by
  have main : (req.jwtAppID = none ∨ req.jwtAppID = some "") →
      TenantMiddleware reg req = tenantFallback reg req →
      ((∀ a, TenantMiddleware reg req = .next (some a) ↔ ResolvesTo reg req a)
        ∧ TenantMiddleware reg req ≠ .next none
        ∧ ((∀ a, ¬ ResolvesTo reg req a) →
            ∃ msg, TenantMiddleware reg req = .badRequest msg)) := by
    intro hmiss hTM
    obtain ⟨f1, f2, f3⟩ := tenantFallback_cases reg req
    have hiff : ∀ a, ((req.headerAppID = a ∧ a ≠ "" ∧ reg a = true)
        ∨ (req.headerAppID = "" ∧ req.queryAppID = a ∧ a ≠ "" ∧ reg a = true))
        ↔ ResolvesTo reg req a := by
      intro a
      unfold ResolvesTo
      constructor
      · rintro (⟨hh, hne, hr⟩ | ⟨hh, hqa, hne, hr⟩)
        · exact Or.inr (Or.inl ⟨hmiss, hh, hne, hr⟩)
        · exact Or.inr (Or.inr ⟨hmiss, hh, hqa, hne, hr⟩)
      · rintro (⟨hsome, hne⟩ | ⟨_, hh, hne, hr⟩ | ⟨_, hh, hqa, hne, hr⟩)
        · exfalso
          rcases hmiss with hm | hm <;> rw [hm] at hsome
          · exact Option.noConfusion hsome
          · injection hsome with h
            exact hne h.symm
        · exact Or.inl ⟨hh, hne, hr⟩
        · exact Or.inr ⟨hh, hqa, hne, hr⟩
    refine ⟨?_, ?_, ?_⟩
    · intro a
      rw [hTM, f1 a]
      exact hiff a
    · rw [hTM]
      exact f2
    · intro hno
      rw [hTM]
      apply f3
      intro a hfb
      exact hno a ((hiff a).mp hfb)
  cases hjwt : req.jwtAppID with
  | none => exact main (Or.inl hjwt) (by simp [TenantMiddleware, hpath, hjwt])
  | some a0 =>
    by_cases ha0 : a0 = ""
    · subst ha0
      exact main (Or.inr hjwt) (by simp [TenantMiddleware, hpath, hjwt])
    · have hTM : TenantMiddleware reg req = .next (some a0) := by
        simp [TenantMiddleware, hpath, hjwt, ha0]
      refine ⟨?_, by simp [hTM], ?_⟩
      · intro a
        rw [hTM]
        unfold ResolvesTo
        constructor
        · intro hnext
          simp only [TenantOutcome.next.injEq, Option.some.injEq] at hnext
          subst hnext
          exact Or.inl ⟨hjwt, ha0⟩
        · rintro (⟨hsome, _⟩ | ⟨hm, _, _, _⟩ | ⟨hm, _, _, _, _⟩)
          · rw [hjwt] at hsome
            injection hsome with h
            rw [h]
          · exfalso
            rcases hm with hm | hm <;> rw [hjwt] at hm
            · exact Option.noConfusion hm
            · injection hm with h
              exact ha0 h
          · exfalso
            rcases hm with hm | hm <;> rw [hjwt] at hm
            · exact Option.noConfusion hm
            · injection hm with h
              exact ha0 h
      · intro hno
        exact absurd (show ResolvesTo reg req a0 from Or.inl ⟨hjwt, ha0⟩) (hno a0)

/-- C5 witness: the login path is non-exempt and a header-carried
tenant validated against the registry resolves. -/
theorem tenant_middleware_resolution_witness :
    (tenantSkipPaths.any (fun skip => skip.data.isPrefixOf req5.path.data)) = false
  ∧ TenantMiddleware reg1 req5 = .next (some "t1") := by
  refine ⟨by decide, ?_⟩
  exact ((tenant_middleware_resolution reg1 req5 (by decide)).1 "t1").mpr
    (Or.inr (Or.inl ⟨Or.inl rfl, rfl, by decide, rfl⟩))

/-- The fold of `Registry.Register` over the parsed file: a lookup hits
the most recent registration carrying that identifier, and otherwise
falls back to the starting registry. -/
theorem loadFromApps_foldl (apps : List AppConfig) (r : Registry) (id : String) :
    (apps.foldl (fun r cfg => r.registerApp cfg) r).apps id
      = (apps.reverse.find? (fun c => c.appID == id)).or (r.apps id) := by
  induction apps generalizing r with
  | nil => simp
  | cons a l ih =>
    rw [List.foldl_cons, ih, List.reverse_cons, List.find?_append]
    cases hfind : l.reverse.find? (fun c => c.appID == id) with
    | some c => simp
    | none =>
      by_cases h : a.appID = id
      · simp [Registry.registerApp, h]
      · have h2 : (id == a.appID) = false := by
          simp [beq_iff_eq]
          exact fun he => h he.symm
        have h3 : (a.appID == id) = false := by
          simp [beq_iff_eq, h]
        simp only [Registry.registerApp, List.find?_cons, h2, h3, if_false]
        simp [h2, h3]

/-- C9 counterexample: loading a definition file whose single tenant
has the empty identifier succeeds and leaves that tenant present and
retrievable, refuting the never-empty half of the invariant. -/
theorem registry_empty_id_counterexample :
    (loadFromApps [emptyIDCfg]).existsApp "" = true
  ∧ (loadFromApps [emptyIDCfg]).getApp "" = some emptyIDCfg
  ∧ emptyIDCfg.appID = "" := by
  exact ⟨rfl, rfl, rfl⟩

/-- C9 amended: every registry produced by a successful load maps each
identifier to at most one tenant — the most recently registered tenant
bearing that identifier — and any tenant returned by a lookup carries
the looked-up identifier and comes from the loaded file; the load does
not, however, reject empty identifiers. -/
theorem registry_unique_ids (apps : List AppConfig) (id : String) :
    (loadFromApps apps).getApp id = apps.reverse.find? (fun c => c.appID == id)
  ∧ (∀ cfg, (loadFromApps apps).getApp id = some cfg → cfg.appID = id ∧ cfg ∈ apps) := by
  have h1 : (loadFromApps apps).getApp id
      = apps.reverse.find? (fun c => c.appID == id) := by
    unfold loadFromApps Registry.getApp
    rw [loadFromApps_foldl]
    simp [newRegistry]
  refine ⟨h1, ?_⟩
  intro cfg hc
  rw [h1] at hc
  have hp := List.find?_some hc
  have hm := List.mem_of_find?_eq_some hc
  simp only [beq_iff_eq] at hp
  exact ⟨hp, List.mem_reverse.mp hm⟩

/-- C4 counterexample: presenting an expired stored refresh token does
fail with `InvalidToken`, but the failed call writes to the stored
record — the store changes and the row's revoked flag is set — refuting
the no-write half of the claim. -/
theorem refresh_expired_write_counterexample :
    (Refresh cEnv 10 "rt2" "r2" "t1" "r9" xStore).1 = .error .invalidToken
  ∧ (Refresh cEnv 10 "rt2" "r2" "t1" "r9" xStore).2 ≠ xStore
  ∧ (Refresh cEnv 10 "rt2" "r2" "t1" "r9" xStore).2.refreshTokens
      = [{ tokExpired with revoked := true }] := by
  exact ⟨rfl, by decide, rfl⟩

/-- C4 amended: a refresh call presenting a stored token whose expiry
is in the past fails with `InvalidToken`, but the failed call does
write to the stored record: it sets the revoked flag of that row
(expiry is still decided at read time, yet the row is mutated rather
than left unchanged); user rows are untouched and every other token row
keeps its value. -/
theorem refresh_expired_fails_and_revokes (env : AuthEnv) (now : Int)
    (fid raw appID r : String) (st : Store) (stored : RefreshToken)
    (hfind : findActiveTokenByHash st appID (env.hashToken r) = some stored)
    (hexp : stored.expiresAt < now) :
    Refresh env now fid raw appID r st = (.error .invalidToken, revokeTokenByID st stored.id)
  ∧ (revokeTokenByID st stored.id).users = st.users
  ∧ (revokeTokenByID st stored.id).refreshTokens
      = st.refreshTokens.map (fun t =>
          if t.id == stored.id then { t with revoked := true } else t) := by
  refine ⟨?_, rfl, rfl⟩
  simp [Refresh, hfind, hexp]

/-- C4 witness: the amended behaviour evaluated on the concrete expired
token. -/
theorem refresh_expired_fails_and_revokes_witness :
    Refresh cEnv 10 "rt2" "r2" "t1" "r9" xStore
      = (.error .invalidToken, revokeTokenByID xStore "rt9") := by
  exact (refresh_expired_fails_and_revokes cEnv 10 "rt2" "r2" "t1" "r9" xStore
    tokExpired rfl (by decide)).1

/-- C7: registration rejects passwords shorter than 8 bytes with the
invalid-input error (handler status 400), rejects an already-taken
(tenant, email) pair with `EmailTaken` (handler status 409), and
registering the same tuple twice on a fresh email creates the user with
non-empty tokens (status 201) and then conflicts with `EmailTaken`
leaving the store unchanged, so no second user is created. -/
theorem register_validation_and_conflict (env : AuthEnv) (now : Int)
    (uid1 fid1 raw1 uid2 fid2 raw2 appID : String) (req : RegisterRequest)
    (st : Store)
    (hemail : req.email.utf8ByteSize ≠ 0)
    (hpwd : 8 ≤ req.password.utf8ByteSize)
    (hsign : ∀ c, env.signJWT c ≠ "")
    (hraw : raw1 ≠ "") :
    (∀ req2 : RegisterRequest, req2.password.utf8ByteSize < 8 →
        Register env now uid1 fid1 raw1 appID req2 st
          = (.error
              (.invalidInput "email required and password must be at least 8 characters"),
             st)
        ∧ registerStatus (Register env now uid1 fid1 raw1 appID req2 st).1 = 400)
  ∧ ((∃ u, findUserByEmail st appID req.email = some u) →
        Register env now uid1 fid1 raw1 appID req st = (.error .emailTaken, st)
        ∧ registerStatus (Register env now uid1 fid1 raw1 appID req st).1 = 409)
  ∧ (findUserByEmail st appID req.email = none →
        Register env now uid1 fid1 raw1 appID req st
          = (.ok { accessToken := generateAccessToken env now appID
                     (registeredUser env uid1 appID req)
                   refreshToken := raw1
                   userID := uid1
                   userEmail := req.email
                   isAppleUser := false },
             { users := st.users ++ [registeredUser env uid1 appID req]
               refreshTokens := st.refreshTokens
                 ++ [issuedToken env now fid1 raw1 appID uid1] })
        ∧ generateAccessToken env now appID (registeredUser env uid1 appID req) ≠ ""
        ∧ raw1 ≠ ""
        ∧ registerStatus (Register env now uid1 fid1 raw1 appID req st).1 = 201
        ∧ (Register env now uid1 fid1 raw1 appID req st).2.users.length
            = st.users.length + 1
        ∧ Register env now uid2 fid2 raw2 appID req
              (Register env now uid1 fid1 raw1 appID req st).2
            = (.error .emailTaken, (Register env now uid1 fid1 raw1 appID req st).2)) := by
  have hp8 : ¬ req.password.utf8ByteSize < 8 := by omega
  have hcond : (req.email.utf8ByteSize == 0 || decide (req.password.utf8ByteSize < 8))
      = false := by
    simp [hemail, hp8]
  refine ⟨?_, ?_, ?_⟩
  · intro req2 hshort
    constructor
    · simp [Register, hshort]
    · simp [Register, hshort, registerStatus]
  · rintro ⟨u, hu⟩
    constructor
    · simp [Register, hcond, hu]
    · simp [Register, hcond, hu, registerStatus]
  · intro hnone
    have hreg : Register env now uid1 fid1 raw1 appID req st
        = (.ok { accessToken := generateAccessToken env now appID
                   (registeredUser env uid1 appID req)
                 refreshToken := raw1
                 userID := uid1
                 userEmail := req.email
                 isAppleUser := false },
           { users := st.users ++ [registeredUser env uid1 appID req]
             refreshTokens := st.refreshTokens
               ++ [issuedToken env now fid1 raw1 appID uid1] }) := by
      simp [Register, hcond, hnone, generateTokenPair, generateRefreshToken,
        registeredUser]
    have hfound : findUserByEmail (Register env now uid1 fid1 raw1 appID req st).2
        appID req.email = some (registeredUser env uid1 appID req) := by
      rw [hreg]
      unfold findUserByEmail at hnone ⊢
      simp only [List.find?_append, hnone, Option.none_or]
      simp [registeredUser]
    refine ⟨hreg, hsign _, hraw, ?_, ?_, ?_⟩
    · rw [hreg]
      rfl
    · rw [hreg]
      simp
    · generalize hS : (Register env now uid1 fid1 raw1 appID req st).2 = S at hfound ⊢
      simp [Register, hcond, hfound]

/-- C7 witness: the specification scenario on the concrete store —
register `(t1, a@x.com, longenough1)` into an empty store, then
register the same tuple again. -/
theorem register_validation_and_conflict_witness :
    Register cEnv 10 "u1" "rt1" "r1" "t1" regReq emptyStore = (.ok respReg, stReg1)
  ∧ respReg.accessToken ≠ ""
  ∧ respReg.refreshToken ≠ ""
  ∧ Register cEnv 10 "u2" "rt2" "r2" "t1" regReq stReg1
      = (.error .emailTaken, stReg1) := by
  have hsign : ∀ c, cEnv.signJWT c ≠ "" := by
    intro c h
    have hlen := congrArg String.length h
    simp [cEnv, String.length_append] at hlen
    exact absurd hlen.1.1.1 (by decide)
  obtain ⟨h1, _, _, _, _, h6⟩ :=
    (register_validation_and_conflict cEnv 10 "u1" "rt1" "r1" "u2" "rt2" "r2" "t1"
      regReq emptyStore (by decide) (by decide) hsign (by decide)).2.2 rfl
  refine ⟨h1.trans rfl, by decide, by decide, ?_⟩
  have h2 : (Register cEnv 10 "u1" "rt1" "r1" "t1" regReq emptyStore).2 = stReg1 := by
    decide
  rw [h2] at h6
  exact h6

/-- C10: when an Apple sign-in's verified claims match an existing user
of the tenant (by Apple subject or email) whose stored Apple subject is
missing, the operation succeeds and updates exactly two fields of that
user row — the Apple subject identifier and the auth provider — leaving
id, email, stored password hash, role and the delete marker unchanged,
leaving every other user row unchanged, and appending only the rotated
refresh-token row; no hypothesis restricts the previous provider, so
this covers accounts created with a password. -/
theorem apple_signin_backfill_frame (env : AuthEnv) (jwks : JWKSEnv) (now : Int)
    (uid fid raw appID bundleID : String) (req : AppleSignInRequest) (st : Store)
    (claims : AppleJWTClaims) (user : User)
    (htok : req.identityToken ≠ "")
    (hverify : VerifyToken jwks req.identityToken bundleID = .ok claims)
    (hfind : findUserByAppleIDOrEmail st appID claims.sub
        (appleEffectiveEmail claims req) = some user)
    (hnil : user.appleUserID = none) :
    (∃ resp, (AppleSignIn env jwks now uid fid raw appID bundleID req st).1 = .ok resp)
  ∧ (AppleSignIn env jwks now uid fid raw appID bundleID req st).2.users
      = st.users.map (fun v =>
          if v.id == user.id then
            { v with appleUserID := some claims.sub, authProvider := "apple" }
          else v)
  ∧ (∀ v ∈ st.users, v.id ≠ user.id →
      v ∈ (AppleSignIn env jwks now uid fid raw appID bundleID req st).2.users)
  ∧ ({ user with appleUserID := some claims.sub, authProvider := "apple" } : User).id
      = user.id
  ∧ ({ user with appleUserID := some claims.sub, authProvider := "apple" } : User).email
      = user.email
  ∧ ({ user with appleUserID := some claims.sub, authProvider := "apple" } : User).password = user.password
  ∧ ({ user with appleUserID := some claims.sub, authProvider := "apple" } : User).role
      = user.role
  ∧ ({ user with appleUserID := some claims.sub, authProvider := "apple" } : User).deleted = user.deleted
  ∧ (AppleSignIn env jwks now uid fid raw appID bundleID req st).2.refreshTokens
      = st.refreshTokens ++ [issuedToken env now fid raw appID user.id] := by
  have htokb : (req.identityToken == "") = false := by
    simp [htok]
  have happ : AppleSignIn env jwks now uid fid raw appID bundleID req st
      = (.ok { accessToken := generateAccessToken env now appID
                 { user with appleUserID := some claims.sub, authProvider := "apple" }
               refreshToken := raw
               userID := user.id
               userEmail := user.email
               isAppleUser := true },
         { users := st.users.map (fun v =>
             if v.id == user.id then
               { v with appleUserID := some claims.sub, authProvider := "apple" }
             else v)
           refreshTokens := st.refreshTokens
             ++ [issuedToken env now fid raw appID user.id] }) := by
    simp [AppleSignIn, htokb, hverify, hfind, hnil, updateAppleLink,
      generateTokenPair, generateRefreshToken]
  refine ⟨⟨_, by rw [happ]⟩, by rw [happ], ?_, rfl, rfl, rfl, rfl, rfl, by rw [happ]⟩
  intro v hv hne
  rw [happ]
  have hvne : (v.id == user.id) = false := by
    simp [hne]
  have := List.mem_map_of_mem (fun v : User =>
    if v.id == user.id then
      { v with appleUserID := some claims.sub, authProvider := "apple" }
    else v) hv
  simpa [hvne] using this

/-- C10 witness: the concrete password-provider user `pwUser` is
backfilled in place: only the Apple subject and provider change. -/
theorem apple_signin_backfill_frame_witness :
    (AppleSignIn cEnv jEnv 10 "u9" "rt9" "r9" "t1" "com.app.one" aReq aStore).2.users
      = [{ pwUser with appleUserID := some "apple-sub-1", authProvider := "apple" }] := by
  have h := (apple_signin_backfill_frame cEnv jEnv 10 "u9" "rt9" "r9" "t1"
    "com.app.one" aReq aStore jClaims pwUser (by decide) rfl rfl rfl).2.1
  rw [h]
  rfl

/-- A missed active-token lookup says exactly that every stored row
with this tenant and hash is revoked or absent. -/
theorem noActiveToken_iff (st : Store) (appID h : String) :
    NoActiveToken st appID h ↔
      ∀ t ∈ st.refreshTokens,
        ¬(t.appID = appID ∧ t.tokenHash = h ∧ t.revoked = false) := by
  unfold NoActiveToken findActiveTokenByHash
  rw [List.find?_eq_none]
  constructor
  · intro hall t ht hc
    exact hall t ht (by simp [hc.1, hc.2.1, hc.2.2])
  · intro hall t ht hp
    simp only [Bool.and_eq_true, beq_iff_eq, Bool.not_eq_true'] at hp
    exact hall t ht ⟨hp.1.1, hp.1.2, hp.2⟩

/-- Setting revoked flags cannot create an active row. -/
theorem dead_map_revoke {appID h : String} {l : List RefreshToken}
    (hl : ∀ t ∈ l, ¬(t.appID = appID ∧ t.tokenHash = h ∧ t.revoked = false))
    (cond : RefreshToken → Bool) :
    ∀ t ∈ l.map (fun t => if cond t then { t with revoked := true } else t),
      ¬(t.appID = appID ∧ t.tokenHash = h ∧ t.revoked = false) := by
  intro t' ht' hc
  obtain ⟨t, ht, rfl⟩ := List.mem_map.mp ht'
  by_cases hcond : cond t = true
  · rw [if_pos hcond] at hc
    exact absurd hc.2.2 (by simp)
  · rw [if_neg hcond] at hc
    exact hl t ht hc

/-- Appending a row that is itself dead for this hash preserves
deadness. -/
theorem dead_append {appID h : String} {l : List RefreshToken} {rec : RefreshToken}
    (hl : ∀ t ∈ l, ¬(t.appID = appID ∧ t.tokenHash = h ∧ t.revoked = false))
    (hrec : ¬(rec.appID = appID ∧ rec.tokenHash = h ∧ rec.revoked = false)) :
    ∀ t ∈ l ++ [rec], ¬(t.appID = appID ∧ t.tokenHash = h ∧ t.revoked = false) := by
  intro t ht
  rcases List.mem_append.mp ht with h1 | h2
  · exact hl t h1
  · rw [List.mem_singleton] at h2
    subst h2
    exact hrec

/-- Deleting rows preserves deadness. -/
theorem dead_filter {appID h : String} {l : List RefreshToken}
    (hl : ∀ t ∈ l, ¬(t.appID = appID ∧ t.tokenHash = h ∧ t.revoked = false))
    (q : RefreshToken → Bool) :
    ∀ t ∈ l.filter q, ¬(t.appID = appID ∧ t.tokenHash = h ∧ t.revoked = false) :=
  fun t ht => hl t (List.mem_of_mem_filter ht)

/-- A freshly issued row whose raw material hashes differently is dead
for this hash. -/
theorem issuedToken_dead {env : AuthEnv} {now : Int} {fid raw appID' uid appID h : String}
    (hfresh : env.hashToken raw ≠ h) :
    ¬((issuedToken env now fid raw appID' uid).appID = appID
      ∧ (issuedToken env now fid raw appID' uid).tokenHash = h
      ∧ (issuedToken env now fid raw appID' uid).revoked = false) := by
  simp [issuedToken, hfresh]

/-- The refresh-token table after `Register`: unchanged on failure, one
fresh row appended on success. -/
theorem Register_snd (env : AuthEnv) (now : Int) (uid fid raw appID : String)
    (req : RegisterRequest) (st : Store) :
    (Register env now uid fid raw appID req st).2.refreshTokens = st.refreshTokens
  ∨ (Register env now uid fid raw appID req st).2.refreshTokens
      = st.refreshTokens ++ [issuedToken env now fid raw appID uid] := by
  unfold Register
  dsimp only
  split
  · exact Or.inl rfl
  · split
    · exact Or.inl rfl
    · exact Or.inr rfl

/-- The refresh-token table after `Login`: unchanged on failure, one
fresh row appended on success. -/
theorem Login_snd (env : AuthEnv) (now : Int) (fid raw appID : String)
    (req : RegisterRequest) (st : Store) :
    (Login env now fid raw appID req st).2.refreshTokens = st.refreshTokens
  ∨ ∃ uid, (Login env now fid raw appID req st).2.refreshTokens
      = st.refreshTokens ++ [issuedToken env now fid raw appID uid] := by
  unfold Login
  dsimp only
  split
  · exact Or.inl rfl
  · split
    · exact Or.inr ⟨_, rfl⟩
    · exact Or.inl rfl

/-- The refresh-token table after `Refresh`: unchanged, one row
revoked, or one row revoked and one fresh row appended. -/
theorem Refresh_snd (env : AuthEnv) (now : Int) (fid raw appID tok : String)
    (st : Store) :
    (Refresh env now fid raw appID tok st).2.refreshTokens = st.refreshTokens
  ∨ (∃ tid, (Refresh env now fid raw appID tok st).2.refreshTokens
      = st.refreshTokens.map (fun t =>
          if t.id == tid then { t with revoked := true } else t))
  ∨ (∃ tid uid, (Refresh env now fid raw appID tok st).2.refreshTokens
      = (st.refreshTokens.map (fun t =>
          if t.id == tid then { t with revoked := true } else t))
        ++ [issuedToken env now fid raw appID uid]) := by
  unfold Refresh
  dsimp only
  split
  · exact Or.inl rfl
  · split
    · exact Or.inr (Or.inl ⟨_, rfl⟩)
    · split
      · exact Or.inr (Or.inl ⟨_, rfl⟩)
      · exact Or.inr (Or.inr ⟨_, _, rfl⟩)

/-- The refresh-token table after `DeleteAccount`: unchanged on
failure, the user's tenant-scoped rows deleted on success. -/
theorem DeleteAccount_snd (env : AuthEnv) (appID uid pw : String) (st : Store) :
    (DeleteAccount env appID uid pw st).2.refreshTokens = st.refreshTokens
  ∨ (DeleteAccount env appID uid pw st).2.refreshTokens
      = st.refreshTokens.filter (fun t => !(t.userID == uid && t.appID == appID)) := by
  unfold DeleteAccount
  split
  · exact Or.inl rfl
  · split
    · split
      · exact Or.inl rfl
      · split
        · exact Or.inr rfl
        · exact Or.inl rfl
    · exact Or.inr rfl

/-- The refresh-token table after `AppleSignIn`: unchanged on failure,
one fresh row appended on success. -/
theorem AppleSignIn_snd (env : AuthEnv) (jwks : JWKSEnv) (now : Int)
    (uid fid raw appID bundleID : String) (req : AppleSignInRequest) (st : Store) :
    (AppleSignIn env jwks now uid fid raw appID bundleID req st).2.refreshTokens
      = st.refreshTokens
  ∨ ∃ uid2, (AppleSignIn env jwks now uid fid raw appID bundleID req st).2.refreshTokens
      = st.refreshTokens ++ [issuedToken env now fid raw appID uid2] := by
  unfold AppleSignIn
  dsimp only
  split
  · exact Or.inl rfl
  · split
    · exact Or.inl rfl
    · split
      · exact Or.inr ⟨_, rfl⟩
      · split
        · exact Or.inr ⟨_, rfl⟩
        · exact Or.inr ⟨_, rfl⟩

/-- `Register` never resurrects a dead hash (fresh randomness aside). -/
theorem noActive_register_step (env : AuthEnv) (now : Int)
    (uid fid raw appID' : String) (req : RegisterRequest) (st : Store)
    (appID h : String) (hna : NoActiveToken st appID h)
    (hfresh : env.hashToken raw ≠ h) :
    NoActiveToken (Register env now uid fid raw appID' req st).2 appID h := by
  rw [noActiveToken_iff] at hna ⊢
  rcases Register_snd env now uid fid raw appID' req st with heq | heq <;> rw [heq]
  · exact hna
  · exact dead_append hna (issuedToken_dead hfresh)

/-- `Login` never resurrects a dead hash. -/
theorem noActive_login_step (env : AuthEnv) (now : Int) (fid raw appID' : String)
    (req : RegisterRequest) (st : Store) (appID h : String)
    (hna : NoActiveToken st appID h) (hfresh : env.hashToken raw ≠ h) :
    NoActiveToken (Login env now fid raw appID' req st).2 appID h := by
  rw [noActiveToken_iff] at hna ⊢
  rcases Login_snd env now fid raw appID' req st with heq | ⟨uid, heq⟩ <;> rw [heq]
  · exact hna
  · exact dead_append hna (issuedToken_dead hfresh)

/-- `Refresh` never resurrects a dead hash. -/
theorem noActive_refresh_step (env : AuthEnv) (now : Int) (fid raw appID' tok : String)
    (st : Store) (appID h : String)
    (hna : NoActiveToken st appID h) (hfresh : env.hashToken raw ≠ h) :
    NoActiveToken (Refresh env now fid raw appID' tok st).2 appID h := by
  rw [noActiveToken_iff] at hna ⊢
  rcases Refresh_snd env now fid raw appID' tok st with heq | ⟨tid, heq⟩ | ⟨tid, uid, heq⟩
    <;> rw [heq]
  · exact hna
  · exact dead_map_revoke hna _
  · exact dead_append (dead_map_revoke hna _) (issuedToken_dead hfresh)

/-- `Logout` only revokes, so it never resurrects a dead hash. -/
theorem noActive_logout_step (env : AuthEnv) (appID' tok : String) (st : Store)
    (appID h : String) (hna : NoActiveToken st appID h) :
    NoActiveToken (Logout env appID' tok st) appID h := by
  rw [noActiveToken_iff] at hna ⊢
  exact dead_map_revoke hna _

/-- `DeleteAccount` only deletes, so it never resurrects a dead hash. -/
theorem noActive_delete_step (env : AuthEnv) (appID' uid pw : String) (st : Store)
    (appID h : String) (hna : NoActiveToken st appID h) :
    NoActiveToken (DeleteAccount env appID' uid pw st).2 appID h := by
  rw [noActiveToken_iff] at hna ⊢
  rcases DeleteAccount_snd env appID' uid pw st with heq | heq <;> rw [heq]
  · exact hna
  · exact dead_filter hna _

/-- `AppleSignIn` never resurrects a dead hash. -/
theorem noActive_apple_step (env : AuthEnv) (jwks : JWKSEnv) (now : Int)
    (uid fid raw appID' bundleID : String) (req : AppleSignInRequest) (st : Store)
    (appID h : String) (hna : NoActiveToken st appID h)
    (hfresh : env.hashToken raw ≠ h) :
    NoActiveToken (AppleSignIn env jwks now uid fid raw appID' bundleID req st).2
      appID h := by
  rw [noActiveToken_iff] at hna ⊢
  rcases AppleSignIn_snd env jwks now uid fid raw appID' bundleID req st
    with heq | ⟨uid2, heq⟩ <;> rw [heq]
  · exact hna
  · exact dead_append hna (issuedToken_dead hfresh)

/-- Along any sequence of credential-core operations whose fresh token
material avoids the hash, a dead hash stays dead. -/
theorem noActive_reach (env : AuthEnv) (appID h : String) (st st' : Store)
    (hreach : Reach env h st st') (hna : NoActiveToken st appID h) :
    NoActiveToken st' appID h := by
  induction hreach with
  | refl => exact hna
  | registerStep st2 now uid fid raw appID' req hr hfresh ih =>
    exact noActive_register_step env now uid fid raw appID' req st2 appID h ih hfresh
  | loginStep st2 now fid raw appID' req hr hfresh ih =>
    exact noActive_login_step env now fid raw appID' req st2 appID h ih hfresh
  | refreshStep st2 now fid raw appID' tok hr hfresh ih =>
    exact noActive_refresh_step env now fid raw appID' tok st2 appID h ih hfresh
  | logoutStep st2 appID' tok hr ih =>
    exact noActive_logout_step env appID' tok st2 appID h ih
  | deleteStep st2 appID' uid pw hr ih =>
    exact noActive_delete_step env appID' uid pw st2 appID h ih
  | appleStep st2 jwks now uid fid raw appID' bundleID req hr hfresh ih =>
    exact noActive_apple_step env jwks now uid fid raw appID' bundleID req st2
      appID h ih hfresh

/-- A refresh call whose presented secret hashes to a dead hash fails
with `InvalidToken` and leaves the store unchanged. -/
theorem refresh_fails_of_noActive (env : AuthEnv) (now : Int)
    (fid raw appID r : String) (st : Store)
    (hna : NoActiveToken st appID (env.hashToken r)) :
    Refresh env now fid raw appID r st = (.error .invalidToken, st) := by
  have hna' : findActiveTokenByHash st appID (env.hashToken r) = none := hna
  simp [Refresh, hna']

/-- What a successful refresh tells us: an active stored row was found
by hash, it was not expired, the owner was found in the revoked store,
and the resulting store is the rotation — the found row revoked by
primary key and one fresh row appended; user rows are unchanged. -/
theorem refresh_ok_elim (env : AuthEnv) (now : Int) (fid raw appID r : String)
    (st st1 : Store) (resp : AuthResponse)
    (hok : Refresh env now fid raw appID r st = (.ok resp, st1)) :
    ∃ stored user,
      findActiveTokenByHash st appID (env.hashToken r) = some stored
      ∧ ¬ stored.expiresAt < now
      ∧ findUserByID (revokeTokenByID st stored.id) appID stored.userID = some user
      ∧ st1.refreshTokens
          = (st.refreshTokens.map (fun t =>
              if t.id == stored.id then { t with revoked := true } else t))
            ++ [issuedToken env now fid raw appID user.id]
      ∧ st1.users = st.users := by
  unfold Refresh at hok
  dsimp only at hok
  split at hok
  · exact absurd hok (by simp)
  · rename_i stored hfind
    split at hok
    · exact absurd hok (by simp)
    · rename_i hexp
      split at hok
      · exact absurd hok (by simp)
      · rename_i user hfu
        have h2 := congrArg Prod.snd hok
        dsimp only at h2
        refine ⟨stored, user, hfind, hexp, hfu, ?_, ?_⟩
        · rw [← h2]
          rfl
        · rw [← h2]
          rfl

/-- Revoking by the key that every live row with this hash carries
kills the hash. -/
theorem dead_map_revoke_key {appID h : String} {l : List RefreshToken} {tid : String}
    (hkey : ∀ t ∈ l, t.appID = appID → t.tokenHash = h → t.revoked = false →
      t.id = tid) :
    ∀ t ∈ l.map (fun t => if t.id == tid then { t with revoked := true } else t),
      ¬(t.appID = appID ∧ t.tokenHash = h ∧ t.revoked = false) := by
  intro t' ht' hc
  obtain ⟨t, ht, rfl⟩ := List.mem_map.mp ht'
  by_cases hid : (t.id == tid) = true
  · rw [if_pos hid] at hc
    exact absurd hc.2.2 (by simp)
  · rw [if_neg hid] at hc
    have hteq := hkey t ht hc.1 hc.2.1 hc.2.2
    rw [hteq] at hid
    simp at hid

/-- After revoking by that key, every row with this hash is revoked. -/
theorem revoked_map_revoke_key {h : String} {l : List RefreshToken} {tid : String}
    (hkey : ∀ t ∈ l, t.tokenHash = h → t.revoked = false → t.id = tid) :
    ∀ t ∈ l.map (fun t => if t.id == tid then { t with revoked := true } else t),
      t.tokenHash = h → t.revoked = true := by
  intro t' ht' hhash
  obtain ⟨t, ht, rfl⟩ := List.mem_map.mp ht'
  by_cases hid : (t.id == tid) = true
  · rw [if_pos hid]
  · rw [if_neg hid] at hhash ⊢
    by_cases hrev : t.revoked = true
    · exact hrev
    · have hteq := hkey t ht hhash (by simpa using hrev)
      rw [hteq] at hid
      simp at hid

/-- Appending a row of a different hash preserves every-row-with-this-
hash-is-revoked. -/
theorem revoked_append {h : String} {l : List RefreshToken} {rec : RefreshToken}
    (hl : ∀ t ∈ l, t.tokenHash = h → t.revoked = true) (hrec : rec.tokenHash ≠ h) :
    ∀ t ∈ l ++ [rec], t.tokenHash = h → t.revoked = true := by
  intro t ht hh
  rcases List.mem_append.mp ht with hm | hm
  · exact hl t hm hh
  · rw [List.mem_singleton] at hm
    subst hm
    exact absurd hh hrec

/-- C2: a refresh token used in one successful refresh call fails on
every subsequent presentation: on success every stored row carrying
that hash is revoked before the fresh pair is issued, and on every
store reachable from there through further credential-core operations
(whose own fresh token material avoids the hash), refreshing with the
same raw token fails with `InvalidToken`.  The `TokenHashUnique`
hypothesis is the data model's `token_hash` unique index; the freshness
hypothesis is the negligible-collision property of the 32 random
bytes. -/
theorem refresh_single_use_rotation (env : AuthEnv) (now1 : Int)
    (fid1 raw1 appID r : String) (st0 st1 : Store) (resp : AuthResponse)
    (huniq : TokenHashUnique st0)
    (hfresh1 : env.hashToken raw1 ≠ env.hashToken r)
    (h1 : Refresh env now1 fid1 raw1 appID r st0 = (.ok resp, st1)) :
    (∀ t ∈ st1.refreshTokens, t.tokenHash = env.hashToken r → t.revoked = true)
  ∧ (∀ st2, Reach env (env.hashToken r) st1 st2 →
      ∀ now2 fid2 raw2, Refresh env now2 fid2 raw2 appID r st2
        = (.error .invalidToken, st2)) := by
  obtain ⟨stored, user, hfind, hexp, hfu, htok, husers⟩ :=
    refresh_ok_elim env now1 fid1 raw1 appID r st0 st1 resp h1
  have hfind' : st0.refreshTokens.find? (fun t =>
      t.appID == appID && t.tokenHash == env.hashToken r && !t.revoked)
        = some stored := hfind
  have hmem := List.mem_of_find?_eq_some hfind'
  have hp := List.find?_some hfind'
  simp only [Bool.and_eq_true, beq_iff_eq, Bool.not_eq_true'] at hp
  have hkey : ∀ t ∈ st0.refreshTokens, t.tokenHash = env.hashToken r →
      t.revoked = false → t.id = stored.id := by
    intro t ht hh _
    have hteq : t = stored := huniq t ht stored hmem (hh.trans hp.1.2.symm)
    rw [hteq]
  have hna1 : NoActiveToken st1 appID (env.hashToken r) := by
    rw [noActiveToken_iff, htok]
    exact dead_append (dead_map_revoke_key (fun t ht _ => hkey t ht))
      (issuedToken_dead hfresh1)
  refine ⟨?_, ?_⟩
  · rw [htok]
    exact revoked_append (revoked_map_revoke_key hkey)
      (by simpa [issuedToken] using hfresh1)
  · intro st2 hreach now2 fid2 raw2
    exact refresh_fails_of_noActive env now2 fid2 raw2 appID r st2
      (noActive_reach env appID (env.hashToken r) st1 st2 hreach hna1)

/-- C2 witness: the concrete rotation — the first refresh with raw
secret `r1` succeeds, the second fails. -/
theorem refresh_single_use_rotation_witness :
    TokenHashUnique wStore
  ∧ Refresh cEnv 10 "rt2" "r2" "t1" "r1" wStore = (.ok wResp, wStore1)
  ∧ Refresh cEnv 20 "rt3" "r3" "t1" "r1" wStore1 = (.error .invalidToken, wStore1) := by
  refine ⟨by unfold TokenHashUnique; decide, rfl, ?_⟩
  exact (refresh_single_use_rotation cEnv 10 "rt2" "r2" "t1" "r1" wStore wStore1 wResp
    (by unfold TokenHashUnique; decide) (by decide) rfl).2 wStore1 (Reach.refl wStore1)
    20 "rt3" "r3"

/-- C6: issuing a session pair and then refreshing with the returned
raw refresh token succeeds exactly once — the refresh succeeds and a
second presentation of the same raw token fails — and the refreshed
pair's embedded subject and tenant equal the original user's identifier
and tenant.  The hypotheses say the fresh raw secrets hash to unused
values and the refresh happens before the long expiry. -/
theorem issue_refresh_round_trip (env : AuthEnv) (now1 now2 : Int)
    (fid1 raw1 fid2 raw2 appID : String) (u : User) (st : Store)
    (hna : NoActiveToken st appID (env.hashToken raw1))
    (hfindu : findUserByID st appID u.id = some u)
    (hexp : ¬ now1 + env.refreshExpiry < now2)
    (hfresh2 : env.hashToken raw2 ≠ env.hashToken raw1) :
    ∃ resp1 st1 resp2 st2,
      generateTokenPair env now1 fid1 raw1 appID u st = (resp1, st1)
      ∧ resp1.refreshToken = raw1
      ∧ Refresh env now2 fid2 raw2 appID resp1.refreshToken st1 = (.ok resp2, st2)
      ∧ resp2.userID = u.id
      ∧ resp2.accessToken = env.signJWT (generateAccessClaims env now2 appID u)
      ∧ (generateAccessClaims env now2 appID u).sub = u.id
      ∧ (generateAccessClaims env now2 appID u).appID = appID
      ∧ (∀ now3 fid3 raw3, Refresh env now3 fid3 raw3 appID resp1.refreshToken st2
          = (.error .invalidToken, st2)) := by
  have hnone : st.refreshTokens.find? (fun t =>
      t.appID == appID && t.tokenHash == env.hashToken raw1 && !t.revoked)
        = none := hna
  have hfind1 : findActiveTokenByHash (generateTokenPair env now1 fid1 raw1 appID u st).2
      appID (env.hashToken raw1) = some (issuedToken env now1 fid1 raw1 appID u.id) := by
    unfold findActiveTokenByHash
    show (st.refreshTokens ++ [issuedToken env now1 fid1 raw1 appID u.id]).find? _ = _
    rw [List.find?_append, hnone]
    simp [issuedToken]
  have hexp2 : ¬ (issuedToken env now1 fid1 raw1 appID u.id).expiresAt < now2 := hexp
  have hfu2 : findUserByID (revokeTokenByID
      (generateTokenPair env now1 fid1 raw1 appID u st).2
      (issuedToken env now1 fid1 raw1 appID u.id).id) appID
      (issuedToken env now1 fid1 raw1 appID u.id).userID = some u := hfindu
  have hrefresh : Refresh env now2 fid2 raw2 appID raw1
      (generateTokenPair env now1 fid1 raw1 appID u st).2
      = (.ok (generateTokenPair env now2 fid2 raw2 appID u
               (revokeTokenByID (generateTokenPair env now1 fid1 raw1 appID u st).2
                 (issuedToken env now1 fid1 raw1 appID u.id).id)).1,
         (generateTokenPair env now2 fid2 raw2 appID u
               (revokeTokenByID (generateTokenPair env now1 fid1 raw1 appID u st).2
                 (issuedToken env now1 fid1 raw1 appID u.id).id)).2) := by
    simp only [Refresh, hfind1, if_neg hexp2, hfu2]
  have hdead := (noActiveToken_iff st appID (env.hashToken raw1)).mp hna
  have hkey : ∀ t ∈ st.refreshTokens ++ [issuedToken env now1 fid1 raw1 appID u.id],
      t.appID = appID → t.tokenHash = env.hashToken raw1 → t.revoked = false →
      t.id = (issuedToken env now1 fid1 raw1 appID u.id).id := by
    intro t ht happ hh hr
    rcases List.mem_append.mp ht with hm | hm
    · exact absurd ⟨happ, hh, hr⟩ (hdead t hm)
    · rw [List.mem_singleton] at hm
      subst hm
      rfl
  have hna2 : NoActiveToken (generateTokenPair env now2 fid2 raw2 appID u
      (revokeTokenByID (generateTokenPair env now1 fid1 raw1 appID u st).2
        (issuedToken env now1 fid1 raw1 appID u.id).id)).2
      appID (env.hashToken raw1) := by
    rw [noActiveToken_iff]
    show ∀ t ∈ ((st.refreshTokens ++ [issuedToken env now1 fid1 raw1 appID u.id]).map
        (fun t => if t.id == (issuedToken env now1 fid1 raw1 appID u.id).id then
          { t with revoked := true } else t))
        ++ [issuedToken env now2 fid2 raw2 appID u.id], _
    exact dead_append (dead_map_revoke_key hkey) (issuedToken_dead hfresh2)
  refine ⟨(generateTokenPair env now1 fid1 raw1 appID u st).1,
    (generateTokenPair env now1 fid1 raw1 appID u st).2,
    (generateTokenPair env now2 fid2 raw2 appID u
      (revokeTokenByID (generateTokenPair env now1 fid1 raw1 appID u st).2
        (issuedToken env now1 fid1 raw1 appID u.id).id)).1,
    (generateTokenPair env now2 fid2 raw2 appID u
      (revokeTokenByID (generateTokenPair env now1 fid1 raw1 appID u st).2
        (issuedToken env now1 fid1 raw1 appID u.id).id)).2,
    rfl, rfl, hrefresh, rfl, rfl, rfl, rfl, ?_⟩
  intro now3 fid3 raw3
  exact refresh_fails_of_noActive env now3 fid3 raw3 appID raw1 _ hna2

/-- C6 witness: the concrete round trip — issue on `store6`, refresh
once successfully, fail on the second presentation. -/
theorem issue_refresh_round_trip_witness :
    Refresh cEnv 20 "rt2" "r2" "t1" "r1" store6a = (.ok resp6, store6b)
  ∧ Refresh cEnv 30 "rt3" "r3" "t1" "r1" store6b = (.error .invalidToken, store6b) := by
  obtain ⟨resp1, st1, resp2, st2, hgtp, hrt, hrefresh, _, _, _, _, hfail⟩ :=
    issue_refresh_round_trip cEnv 10 20 "rt1" "r1" "rt2" "r2" "t1" user0 store6
      rfl rfl (by decide) (by decide)
  have hg : generateTokenPair cEnv 10 "rt1" "r1" "t1" user0 store6
      = (resp6first, store6a) := rfl
  rw [hg] at hgtp
  have hr1 : resp1 = resp6first := (Prod.mk.injEq _ _ _ _ |>.mp hgtp).1.symm
  have hs1 : st1 = store6a := (Prod.mk.injEq _ _ _ _ |>.mp hgtp).2.symm
  rw [hr1, hs1] at hrefresh
  have hrt6 : resp6first.refreshToken = "r1" := rfl
  rw [hrt6] at hrefresh
  have hconc : Refresh cEnv 20 "rt2" "r2" "t1" "r1" store6a = (.ok resp6, store6b) := rfl
  have hpair := hrefresh.symm.trans hconc
  have hr2 : resp2 = resp6 := by
    have := (Prod.mk.injEq _ _ _ _ |>.mp hpair).1
    exact (Except.ok.injEq _ _ |>.mp this)
  have hs2 : st2 = store6b := (Prod.mk.injEq _ _ _ _ |>.mp hpair).2
  refine ⟨hconc, ?_⟩
  have := hfail 30 "rt3" "r3"
  rw [hr1, hrt6, hs2] at this
  exact this

end UnifiedBackend
